import Mathlib

/-!
# Verification of the multi-level feedback scheduler (`threads/scheduler.cc`)

This file gives a shallow embedding of the scheduler in
`code/threads/scheduler.cc` / `scheduler.h` and proves properties of its
operations `ReadyToRun`, `FindNextToRun`, `PureFindNext`, `Run` and
`CheckToBeDestroyed`.

Modelling conventions:
* The `Thread` class itself is not part of the two source files; its
  scheduler-visible fields are modelled from the spec's data model
  (`id`, `priority`, `predicted_burst` (`T`), `accum_burst` (`tempTick`),
  `last_dispatch_tick`, `status`).  The spec describes `predicted_burst`
  as a non-negative real, so `T` and `tempTick` are embedded as rationals
  with exact arithmetic.
* C++ pointer identity of thread objects is modelled by the stable integer
  `id` field ("id: stable integer identity"); the test
  `kernel->currentThread != thread` becomes an `id` comparison, and the
  value passed to an operation is taken as the authoritative current value
  of the object with that `id`.
* Queues hold `Entry` values: a thread together with a ghost admission
  sequence number.  The ghost number does not exist in the C++ state; it
  records the order in which `ReadyToRun` pushed entries, which in the
  C++ program is implicit in `std::list` order, and is used only to state
  the FIFO tie-breaking discipline.
* `ASSERT(...)` failures halt the NachOS kernel; operations containing an
  `ASSERT` therefore return `Option`, with `none` for a failed assertion.
* `printf` trace output is modelled by an event list accumulated in the
  state; `kernel->stats->totalTicks` is a state field the scheduler reads.
* `kernel->alarm->setStat(b)` is modelled by a boolean `alarmStat` field.
* `Run` is embedded up to the `SWITCH` call: the code after `SWITCH`
  executes only when the old thread is next dispatched, and the
  user-state save/restore, `CheckOverflow` and the machine switch itself
  are external collaborators that do not touch the scheduler state.
-/

/-- Modelled from the spec: thread status values
(`status`: one of NEW, READY, RUNNING, BLOCKED, TERMINATED);
`thread.h` is not among the source files. -/
inductive ThreadStatus where
  | NEW
  | READY
  | RUNNING
  | BLOCKED
  | TERMINATED
deriving DecidableEq, Repr

/-- Modelled from the spec: the scheduler-visible fields of the `Thread`
class (`thread.h` is not among the source files).  `T` is the predicted
CPU burst (`checkT`/`setT`), `tempTick` the accumulated burst
(`checkTempTick`/`setTempTick`), `lastExecTick` the last dispatch tick
(`setLastExecTick`).  The spec calls `predicted_burst` a non-negative
real, so `T` and `tempTick` are rationals with exact arithmetic. -/
structure Thread where
  id : ℤ
  priority : ℤ
  T : ℚ
  tempTick : ℚ
  lastExecTick : ℤ
  status : ThreadStatus
deriving DecidableEq, Repr

/-- A ready-queue entry: a thread value plus a ghost admission sequence
number recording the order in which `ReadyToRun` appended entries (the
C++ program carries this information implicitly in `std::list` order). -/
structure Entry where
  th : Thread
  seq : ℕ
deriving DecidableEq, Repr

/-- The observable trace events emitted by `printf` in `scheduler.cc`. -/
inductive Event where
  | inserted (tick : ℤ) (tid : ℤ) (level : ℕ)
  | removed (tick : ℤ) (tid : ℤ) (level : ℕ)
  | selected (tick : ℤ) (tid : ℤ)
  | replaced (tick : ℤ) (tid : ℤ) (ticksRun : ℚ)
deriving DecidableEq, Repr

/-- The scheduler state: the three ready queues and `toBeDestroyed` from
`class Scheduler`, together with the pieces of kernel state the scheduler
reads and writes (`kernel->currentThread`, `kernel->stats->totalTicks`,
`kernel->alarm`'s status, the interrupt level used by the `ASSERT`s) and
the accumulated `printf` trace.  `seqCounter` is the ghost admission
counter stamping queue entries. -/
structure SchedState where
  L1Queue : List Entry
  L2Queue : List Entry
  L3Queue : List Entry
  toBeDestroyed : Option Thread
  enablePreemptOnce : Bool
  current : Thread
  totalTicks : ℤ
  alarmStat : Bool
  intOff : Bool
  trace : List Event
  seqCounter : ℕ
deriving DecidableEq, Repr

/-- `bool cmpL2(Thread *th1, Thread *th2) { return th1->checkPriority() > th2->checkPriority(); }` -/
def cmpL2 (a b : Entry) : Prop := a.th.priority > b.th.priority

/-- `bool cmpL1(Thread *th1, Thread *th2) { return th1->checkT() < th2->checkT(); }` -/
def cmpL1 (a b : Entry) : Prop := a.th.T < b.th.T

instance : DecidableRel cmpL2 := fun a b => inferInstanceAs (Decidable (_ > _))

instance : DecidableRel cmpL1 := fun a b => inferInstanceAs (Decidable (_ < _))

/-- The non-strict relation under which `std::list::sort(cmpL1)` leaves the
queue sorted: `a` may stay before `b` iff `cmpL1 b a` does not hold. -/
def leL1 (a b : Entry) : Prop := ¬ cmpL1 b a

/-- The non-strict relation under which `std::list::sort(cmpL2)` leaves the
queue sorted: `a` may stay before `b` iff `cmpL2 b a` does not hold. -/
def leL2 (a b : Entry) : Prop := ¬ cmpL2 b a

instance : DecidableRel leL1 := fun a b => inferInstanceAs (Decidable (¬ _))

instance : DecidableRel leL2 := fun a b => inferInstanceAs (Decidable (¬ _))

/-- `std::list::sort` is a stable sort; on values it coincides with
insertion sort by the induced non-strict relation. -/
def listSortL1 (l : List Entry) : List Entry := l.insertionSort leL1

/-- `std::list::sort` is a stable sort; on values it coincides with
insertion sort by the induced non-strict relation. -/
def listSortL2 (l : List Entry) : List Entry := l.insertionSort leL2

/-- The predictor update on line 79 of `scheduler.cc`:
`setT(checkTempTick() / 2 + checkT() / 2)`. -/
def predictorUpdate (tempTick T : ℚ) : ℚ := tempTick / 2 + T / 2

/-- `Scheduler::ReadyToRun(Thread *thread)`.  Returns `none` when the
`ASSERT(kernel->interrupt->getLevel() == IntOff)` fails.  Mirrors the
source line by line: set the thread's status to `READY`; if the admitted
thread is not the current thread, update the current thread's predicted
burst to `tempTick/2 + T/2`; then select the queue by priority band
(`< 50` → L3, `< 100` → L2, otherwise L1), print the insertion event and
push the thread, sorting L2 with `cmpL2` and L1 with `cmpL1`, and setting
`enablePreemptOnce` for L1/L2 admissions of a non-current thread. -/
def readyToRun (s : SchedState) (thread : Thread) : Option SchedState :=
  if s.intOff = false then none else
  let th := { thread with status := ThreadStatus.READY }
  let cur := if thread.id = s.current.id then th
             else { s.current with T := predictorUpdate s.current.tempTick s.current.T }
  let e : Entry := ⟨th, s.seqCounter⟩
  if th.priority < 50 then
    some { s with
           current := cur,
           L3Queue := s.L3Queue ++ [e],
           trace := s.trace ++ [Event.inserted s.totalTicks th.id 3],
           seqCounter := s.seqCounter + 1 }
  else if th.priority < 100 then
    some { s with
           current := cur,
           L2Queue := listSortL2 (s.L2Queue ++ [e]),
           trace := s.trace ++ [Event.inserted s.totalTicks th.id 2],
           enablePreemptOnce :=
             (if thread.id = s.current.id then s.enablePreemptOnce else true),
           seqCounter := s.seqCounter + 1 }
  else
    some { s with
           current := cur,
           L1Queue := listSortL1 (s.L1Queue ++ [e]),
           trace := s.trace ++ [Event.inserted s.totalTicks th.id 1],
           enablePreemptOnce :=
             (if thread.id = s.current.id then s.enablePreemptOnce else true),
           seqCounter := s.seqCounter + 1 }

/-- `Scheduler::FindNextToRun()`.  Returns `none` when the interrupt
`ASSERT` fails; otherwise returns the removed thread entry (or the NULL
sentinel) together with the updated state.  Mirrors the source's branch
structure: all queues empty → NULL; L1 and L2 empty → pop L3 and turn the
alarm on; L1 empty → pop L2 and turn the alarm off; otherwise pop L1 and
turn the alarm off, in each case printing the removal event. -/
def findNextToRun (s : SchedState) : Option (Option Entry × SchedState) :=
  if s.intOff = false then none else
  match s.L1Queue, s.L2Queue, s.L3Queue with
  | [], [], [] => some (none, s)
  | [], [], e :: t =>
      some (some e, { s with alarmStat := true, L3Queue := t,
                             trace := s.trace ++ [Event.removed s.totalTicks e.th.id 3] })
  | [], e :: t, _ =>
      some (some e, { s with alarmStat := false, L2Queue := t,
                             trace := s.trace ++ [Event.removed s.totalTicks e.th.id 2] })
  | e :: t, _, _ =>
      some (some e, { s with alarmStat := false, L1Queue := t,
                             trace := s.trace ++ [Event.removed s.totalTicks e.th.id 1] })

/-- `Scheduler::PureFindNext()`.  Returns `none` when the interrupt
`ASSERT` fails; otherwise returns the front of the highest non-empty
queue (or the NULL sentinel) without any state change — the source reads
`front()` but never pops, prints or touches the alarm. -/
def pureFindNext (s : SchedState) : Option (Option Entry) :=
  if s.intOff = false then none else
  match s.L1Queue, s.L2Queue, s.L3Queue with
  | [], [], [] => some none
  | [], [], e :: _ => some (some e)
  | [], e :: _, _ => some (some e)
  | e :: _, _, _ => some (some e)

/-- `Scheduler::Run(Thread *nextThread, bool finishing)`, embedded up to
the `SWITCH` call.  Returns `none` when an `ASSERT` fails: the interrupt
check, or `ASSERT(toBeDestroyed == NULL)` when `finishing`.  Otherwise:
if `finishing`, `toBeDestroyed` is set to the old current thread (whose
`lastExecTick`/`tempTick` updates later in the function act on the same
object, so the stored value carries them); the current thread becomes
`nextThread` with status `RUNNING`; the selection and replacement events
are printed, the latter with the old thread's `tempTick` read before it
is reset.  User-state save and `CheckOverflow` act on external state. -/
def run (s : SchedState) (nextThread : Thread) (finishing : Bool) : Option SchedState :=
  if s.intOff = false then none else
  let oldThread := s.current
  if finishing = true ∧ s.toBeDestroyed ≠ none then none else
  let oldFinal := { oldThread with lastExecTick := s.totalTicks, tempTick := 0 }
  let cur := if nextThread.id = oldThread.id then
               { nextThread with status := ThreadStatus.RUNNING,
                                 lastExecTick := s.totalTicks, tempTick := 0 }
             else { nextThread with status := ThreadStatus.RUNNING }
  some { s with toBeDestroyed := if finishing then some oldFinal else s.toBeDestroyed,
                current := cur,
                trace := s.trace ++ [Event.selected s.totalTicks nextThread.id,
                                     Event.replaced s.totalTicks oldThread.id oldThread.tempTick] }

/-- `Scheduler::CheckToBeDestroyed()`: if `toBeDestroyed` is non-NULL,
delete it and clear the slot; otherwise do nothing.  Deleting the thread
descriptor frees external memory; on the scheduler state it clears the
slot. -/
def checkToBeDestroyed (s : SchedState) : SchedState :=
  match s.toBeDestroyed with
  | some _ => { s with toBeDestroyed := none }
  | none => s

/-! ## Sample states used by witnesses and counterexamples -/

/-- A sample L3-band thread. -/
def thA : Thread := ⟨1, 30, 2, 0, 0, ThreadStatus.READY⟩

/-- A sample L2-band thread. -/
def thB : Thread := ⟨2, 80, 4, 0, 0, ThreadStatus.READY⟩

/-- A sample L1-band thread. -/
def thC : Thread := ⟨3, 120, 6, 1, 0, ThreadStatus.READY⟩

/-- A sample running thread (the current thread of `s0`). -/
def curT : Thread := ⟨0, 110, 10, 4, 0, ThreadStatus.RUNNING⟩

/-- A sample scheduler state with one entry in each ready queue. -/
def s0 : SchedState :=
  { L1Queue := [⟨thC, 0⟩], L2Queue := [⟨thB, 1⟩], L3Queue := [⟨thA, 2⟩],
    toBeDestroyed := none, enablePreemptOnce := false, current := curT,
    totalTicks := 100, alarmStat := false, intOff := true, trace := [],
    seqCounter := 3 }

/-! ## Selection: `FindNextToRun` and `PureFindNext` -/

/-- The selection contract of `FindNextToRun`: the NULL sentinel is
returned exactly when all three queues are empty (with no state change),
and otherwise the head of the highest non-empty band in the order
L1 → L2 → L3 is removed and returned, with the corresponding removal
event and alarm setting. -/
def FindNextToRunSpec (s : SchedState) : Prop :=
  (findNextToRun s = some (none, s) ↔
    s.L1Queue = [] ∧ s.L2Queue = [] ∧ s.L3Queue = []) ∧
  (∀ e t, s.L1Queue = e :: t →
    findNextToRun s = some (some e,
      { s with alarmStat := false, L1Queue := t,
               trace := s.trace ++ [Event.removed s.totalTicks e.th.id 1] })) ∧
  (∀ e t, s.L1Queue = [] → s.L2Queue = e :: t →
    findNextToRun s = some (some e,
      { s with alarmStat := false, L2Queue := t,
               trace := s.trace ++ [Event.removed s.totalTicks e.th.id 2] })) ∧
  (∀ e t, s.L1Queue = [] → s.L2Queue = [] → s.L3Queue = e :: t →
    findNextToRun s = some (some e,
      { s with alarmStat := true, L3Queue := t,
               trace := s.trace ++ [Event.removed s.totalTicks e.th.id 3] }))

/-- C1: for every state of the ready set (with interrupts off, as the
source asserts), `FindNextToRun` returns the head of the highest
non-empty band in the order L1 then L2 then L3, removes that thread from
its queue, and returns the sentinel `none` exactly when all three queues
are empty. -/
theorem findNextToRun_highest_band (s : SchedState) (h : s.intOff = true) :
    FindNextToRunSpec s := by
  obtain ⟨l1, l2, l3, tbd, ep, cur, tt, al, io, tr, sc⟩ := s
  replace h : io = true := h
  subst h
  rcases l1 with _ | ⟨e1, t1⟩
  · rcases l2 with _ | ⟨e2, t2⟩
    · rcases l3 with _ | ⟨e3, t3⟩
      · simp [FindNextToRunSpec, findNextToRun]
      · simp [FindNextToRunSpec, findNextToRun]
    · simp [FindNextToRunSpec, findNextToRun]
  · simp [FindNextToRunSpec, findNextToRun]

/-- Witness: `findNextToRun_highest_band` applied to the concrete state `s0`. -/
theorem findNextToRun_highest_band_witness :
    s0.intOff = true ∧ FindNextToRunSpec s0 :=
  ⟨rfl, findNextToRun_highest_band s0 rfl⟩

/-- The frame contract of `FindNextToRun`: on an all-empty ready set the
state is returned unchanged, and otherwise exactly the returned entry is
removed from the head of exactly one queue while the other two queues
and the `toBeDestroyed` slot are unchanged. -/
def FindNextFrameSpec (s : SchedState) : Prop :=
  (s.L1Queue = [] → s.L2Queue = [] → s.L3Queue = [] →
    findNextToRun s = some (none, s)) ∧
  (∀ e s', findNextToRun s = some (some e, s') →
    s'.toBeDestroyed = s.toBeDestroyed ∧
    ((s.L1Queue = e :: s'.L1Queue ∧ s'.L2Queue = s.L2Queue ∧ s'.L3Queue = s.L3Queue) ∨
     (s.L1Queue = [] ∧ s'.L1Queue = [] ∧ s.L2Queue = e :: s'.L2Queue ∧
       s'.L3Queue = s.L3Queue) ∨
     (s.L1Queue = [] ∧ s.L2Queue = [] ∧ s'.L1Queue = [] ∧ s'.L2Queue = [] ∧
       s.L3Queue = e :: s'.L3Queue)))

/-- C10: for every non-empty state of the ready set (interrupts off),
`FindNextToRun` removes exactly one thread — the one it returns — from
exactly one queue; the other two queues and the `toBeDestroyed` slot are
unchanged, and when all queues are empty no state is modified at all. -/
theorem findNextToRun_frame (s : SchedState) (h : s.intOff = true) :
    FindNextFrameSpec s := by
  obtain ⟨l1, l2, l3, tbd, ep, cur, tt, al, io, tr, sc⟩ := s
  replace h : io = true := h
  subst h
  rcases l1 with _ | ⟨e1, t1⟩
  · rcases l2 with _ | ⟨e2, t2⟩
    · rcases l3 with _ | ⟨e3, t3⟩
      · simp [FindNextFrameSpec, findNextToRun]
      · simp [FindNextFrameSpec, findNextToRun]
    · simp [FindNextFrameSpec, findNextToRun]
  · simp [FindNextFrameSpec, findNextToRun]

/-- Witness: `findNextToRun_frame` applied to the concrete state `s0`. -/
theorem findNextToRun_frame_witness :
    s0.intOff = true ∧ FindNextFrameSpec s0 :=
  ⟨rfl, findNextToRun_frame s0 rfl⟩

/-- C8: `PureFindNext` returns exactly the thread `FindNextToRun` would
return — the first components agree in every state, including the failed
interrupt assertion and the empty-set sentinel — and, being a pure
function of the state, it changes no queue. -/
theorem pureFindNext_agrees_findNextToRun (s : SchedState) :
    Option.map Prod.fst (findNextToRun s) = pureFindNext s := by
  obtain ⟨l1, l2, l3, tbd, ep, cur, tt, al, io, tr, sc⟩ := s
  by_cases h : io = false
  · simp [findNextToRun, pureFindNext, h]
  · rcases l1 with _ | ⟨e1, t1⟩
    · rcases l2 with _ | ⟨e2, t2⟩
      · rcases l3 with _ | ⟨e3, t3⟩
        · simp [findNextToRun, pureFindNext, h]
        · simp [findNextToRun, pureFindNext, h]
      · simp [findNextToRun, pureFindNext, h]
    · simp [findNextToRun, pureFindNext, h]

/-! ## Reclamation: `CheckToBeDestroyed` and `Run` -/

/-- C7: `CheckToBeDestroyed` is idempotent — calling it twice from any
state equals calling it once — and after any call the pending-destruction
slot is `none`. -/
theorem checkToBeDestroyed_idempotent (s : SchedState) :
    checkToBeDestroyed (checkToBeDestroyed s) = checkToBeDestroyed s ∧
    (checkToBeDestroyed s).toBeDestroyed = none := by
  rcases hd : s.toBeDestroyed with _ | t
  · simp [checkToBeDestroyed, hd]
  · simp [checkToBeDestroyed, hd]

/-- The destruction-handoff contract of `Run` with `finishing = true`:
when no destruction is pending the call succeeds and parks the old
current thread (with its `lastExecTick`/`tempTick` updates) in
`toBeDestroyed`; when a destruction is already pending the
`ASSERT(toBeDestroyed == NULL)` fails and the kernel panics.  The slot
being a single `Option` cell, at most one thread is ever pending
destruction. -/
def RunFinishingSpec (s : SchedState) (nextThread : Thread) : Prop :=
  (s.toBeDestroyed = none →
    Option.map (fun s' => s'.toBeDestroyed) (run s nextThread true) =
      some (some { s.current with lastExecTick := s.totalTicks, tempTick := 0 })) ∧
  (s.toBeDestroyed ≠ none → run s nextThread true = none)

/-- C6: for every call `run(next, finishing)` with `finishing = true`
(interrupts off), the call asserts that `toBeDestroyed` is `none` and
then sets `toBeDestroyed` to the old current thread; the assertion is
never violated when no destruction is pending on entry, and the
single-slot state keeps at most one thread pending destruction. -/
theorem run_finishing_destroy (s : SchedState) (nextThread : Thread)
    (h : s.intOff = true) : RunFinishingSpec s nextThread := by
  constructor
  · intro hd
    simp [run, h, hd]
  · intro hd
    simp [run, h, hd]

/-- Witness: `run_finishing_destroy` applied to the concrete state `s0`
and thread `thA`. -/
theorem run_finishing_destroy_witness :
    s0.intOff = true ∧ RunFinishingSpec s0 thA :=
  ⟨rfl, run_finishing_destroy s0 thA rfl⟩

/-! ## Placement: `ReadyToRun` -/

/-- Reduction of `readyToRun` in the L3 band (`priority < 50`). -/
lemma readyToRun_L3 (s : SchedState) (thread : Thread) (h : s.intOff = true)
    (h50 : thread.priority < 50) :
    readyToRun s thread = some
      { s with
        current := (if thread.id = s.current.id
                    then { thread with status := ThreadStatus.READY }
                    else { s.current with
                           T := predictorUpdate s.current.tempTick s.current.T }),
        L3Queue := s.L3Queue ++
          [⟨{ thread with status := ThreadStatus.READY }, s.seqCounter⟩],
        trace := s.trace ++ [Event.inserted s.totalTicks thread.id 3],
        seqCounter := s.seqCounter + 1 } := by
  simp [readyToRun, h, h50]

/-- Reduction of `readyToRun` in the L2 band (`50 ≤ priority < 100`). -/
lemma readyToRun_L2 (s : SchedState) (thread : Thread) (h : s.intOff = true)
    (h50 : ¬ thread.priority < 50) (h100 : thread.priority < 100) :
    readyToRun s thread = some
      { s with
        current := (if thread.id = s.current.id
                    then { thread with status := ThreadStatus.READY }
                    else { s.current with
                           T := predictorUpdate s.current.tempTick s.current.T }),
        L2Queue := listSortL2 (s.L2Queue ++
          [⟨{ thread with status := ThreadStatus.READY }, s.seqCounter⟩]),
        trace := s.trace ++ [Event.inserted s.totalTicks thread.id 2],
        enablePreemptOnce :=
          (if thread.id = s.current.id then s.enablePreemptOnce else true),
        seqCounter := s.seqCounter + 1 } := by
  simp [readyToRun, h, h50, h100]

/-- Reduction of `readyToRun` in the L1 band (`priority ≥ 100`). -/
lemma readyToRun_L1 (s : SchedState) (thread : Thread) (h : s.intOff = true)
    (h50 : ¬ thread.priority < 50) (h100 : ¬ thread.priority < 100) :
    readyToRun s thread = some
      { s with
        current := (if thread.id = s.current.id
                    then { thread with status := ThreadStatus.READY }
                    else { s.current with
                           T := predictorUpdate s.current.tempTick s.current.T }),
        L1Queue := listSortL1 (s.L1Queue ++
          [⟨{ thread with status := ThreadStatus.READY }, s.seqCounter⟩]),
        trace := s.trace ++ [Event.inserted s.totalTicks thread.id 1],
        enablePreemptOnce :=
          (if thread.id = s.current.id then s.enablePreemptOnce else true),
        seqCounter := s.seqCounter + 1 } := by
  simp [readyToRun, h, h50, h100]

/-- The band-placement contract of `ReadyToRun`: the admitted thread
(status set to `READY`) joins exactly the queue of its priority band —
appended for L3, inserted for L1/L2 whose contents are then the old
entries with the new one — the other queues are untouched, and the
matching `inserted into queue L<k>` event is printed. -/
def ReadyToRunBandSpec (s : SchedState) (thread : Thread) : Prop :=
  ∃ s', readyToRun s thread = some s' ∧
    (thread.priority < 50 →
      s'.L3Queue = s.L3Queue ++
        [⟨{ thread with status := ThreadStatus.READY }, s.seqCounter⟩] ∧
      s'.L2Queue = s.L2Queue ∧ s'.L1Queue = s.L1Queue ∧
      s'.trace = s.trace ++ [Event.inserted s.totalTicks thread.id 3]) ∧
    (50 ≤ thread.priority → thread.priority < 100 →
      s'.L2Queue.Perm
        (⟨{ thread with status := ThreadStatus.READY }, s.seqCounter⟩ :: s.L2Queue) ∧
      s'.L3Queue = s.L3Queue ∧ s'.L1Queue = s.L1Queue ∧
      s'.trace = s.trace ++ [Event.inserted s.totalTicks thread.id 2]) ∧
    (100 ≤ thread.priority →
      s'.L1Queue.Perm
        (⟨{ thread with status := ThreadStatus.READY }, s.seqCounter⟩ :: s.L1Queue) ∧
      s'.L3Queue = s.L3Queue ∧ s'.L2Queue = s.L2Queue ∧
      s'.trace = s.trace ++ [Event.inserted s.totalTicks thread.id 1])

/-- C2: every thread passed to `ReadyToRun` (interrupts off) goes to the
queue matching its priority band — L3 if `priority < 50`, L2 if
`50 ≤ priority < 100`, L1 if `priority ≥ 100` — and the matching
`inserted into queue L<k>` trace event is emitted. -/
theorem readyToRun_band (s : SchedState) (thread : Thread) (h : s.intOff = true) :
    ReadyToRunBandSpec s thread := by
  by_cases h50 : thread.priority < 50
  · refine ⟨_, readyToRun_L3 s thread h h50, ?_, ?_, ?_⟩
    · intro _
      exact ⟨rfl, rfl, rfl, rfl⟩
    · intro hge _
      exact absurd hge (not_le.mpr h50)
    · intro hge
      exact absurd (lt_trans h50 (by norm_num)) (not_lt.mpr hge)
  · by_cases h100 : thread.priority < 100
    · refine ⟨_, readyToRun_L2 s thread h h50 h100, ?_, ?_, ?_⟩
      · intro hlt
        exact absurd hlt h50
      · intro _ _
        refine ⟨?_, rfl, rfl, rfl⟩
        exact (List.perm_insertionSort leL2 _).trans (List.perm_append_singleton _ _)
      · intro hge
        exact absurd hge (not_le.mpr h100)
    · refine ⟨_, readyToRun_L1 s thread h h50 h100, ?_, ?_, ?_⟩
      · intro hlt
        exact absurd hlt h50
      · intro _ hlt
        exact absurd hlt h100
      · intro _
        refine ⟨?_, rfl, rfl, rfl⟩
        exact (List.perm_insertionSort leL1 _).trans (List.perm_append_singleton _ _)

/-- Witness: `readyToRun_band` applied to the concrete state `s0` and the
L2-band thread `thB`. -/
theorem readyToRun_band_witness :
    s0.intOff = true ∧ ReadyToRunBandSpec s0 thB :=
  ⟨rfl, readyToRun_band s0 thB rfl⟩

/-- A state in which the running thread re-admits itself (a yield):
`current` has predicted burst 10 and accumulated burst 4. -/
def sYield : SchedState :=
  { L1Queue := [], L2Queue := [], L3Queue := [], toBeDestroyed := none,
    enablePreemptOnce := false, current := ⟨0, 60, 10, 4, 0, ThreadStatus.RUNNING⟩,
    totalTicks := 0, alarmStat := false, intOff := true, trace := [],
    seqCounter := 0 }

/-- Counterexample to C3 as stated: when the yielding current thread is
re-admitted (`thread == current`), `ReadyToRun` does NOT update its
predictor — its `T` stays 10, whereas the claimed exponential average of
`accum_burst = 4` and `T = 10` is 7.  The source updates the predictor on
the opposite condition, `kernel->currentThread != thread`. -/
theorem readyToRun_self_no_update :
    Option.map (fun s' => s'.current.T) (readyToRun sYield sYield.current) = some 10 ∧
    predictorUpdate sYield.current.tempTick sYield.current.T ≠ 10 := by
  constructor
  · rfl
  · rw [predictorUpdate]
    norm_num [sYield]

/-- The amended predictor-update contract: `ReadyToRun` updates the
predictor of the CURRENT thread, to `T' = accum_burst/2 + T/2`, exactly
when the admitted thread is not the current thread; when the current
thread re-admits itself its predictor (and every other field except
`status`) is unchanged.  The admitted thread is always placed with its
own fields untouched except `status := READY`. -/
def PredictorTargetSpec (s : SchedState) (thread : Thread) : Prop :=
  ∃ s', readyToRun s thread = some s' ∧
    (thread.id ≠ s.current.id →
      s'.current = { s.current with
                     T := predictorUpdate s.current.tempTick s.current.T }) ∧
    (thread.id = s.current.id →
      s'.current = { thread with status := ThreadStatus.READY })

/-- C3 (amended): the exponential-average predictor update
`T' = 0.5 · accum_burst + 0.5 · T` is applied to the current (running)
thread exactly when the admitted thread differs from it; the claimed
case — the yielding current thread being re-admitted — is precisely the
case in which no update happens.  The update precedes placement, and the
placed thread's own fields are never rewritten by it. -/
theorem readyToRun_predictor_target (s : SchedState) (thread : Thread)
    (h : s.intOff = true) : PredictorTargetSpec s thread := by
  by_cases h50 : thread.priority < 50
  · exact ⟨_, readyToRun_L3 s thread h h50,
      fun hne => by simp [hne], fun heq => by simp [heq]⟩
  · by_cases h100 : thread.priority < 100
    · exact ⟨_, readyToRun_L2 s thread h h50 h100,
        fun hne => by simp [hne], fun heq => by simp [heq]⟩
    · exact ⟨_, readyToRun_L1 s thread h h50 h100,
        fun hne => by simp [hne], fun heq => by simp [heq]⟩

/-- Witness: `readyToRun_predictor_target` applied to the concrete state
`s0` and thread `thA` (whose id differs from the current thread's). -/
theorem readyToRun_predictor_target_witness :
    s0.intOff = true ∧ PredictorTargetSpec s0 thA :=
  ⟨rfl, readyToRun_predictor_target s0 thA rfl⟩

/-- Halving twice and adding reproduces the input: the algebraic core of
the predictor's stability. -/
lemma predictorUpdate_self (x : ℚ) : predictorUpdate x x = x := by
  rw [predictorUpdate]
  ring

/-- C5: the predictor update is stable — if the current thread's
`accum_burst` equals its predicted burst `T` at the moment of update
(an update moment being an admission of a different thread), the updated
value equals `T`. -/
theorem predictor_update_stable (s : SchedState) (thread : Thread)
    (h : s.intOff = true) (hne : thread.id ≠ s.current.id)
    (heq : s.current.tempTick = s.current.T) :
    ∃ s', readyToRun s thread = some s' ∧ s'.current.T = s.current.T := by
  by_cases h50 : thread.priority < 50
  · refine ⟨_, readyToRun_L3 s thread h h50, ?_⟩
    simp only [hne, if_neg]
    rw [heq]
    exact predictorUpdate_self _
  · by_cases h100 : thread.priority < 100
    · refine ⟨_, readyToRun_L2 s thread h h50 h100, ?_⟩
      simp only [hne, if_neg]
      rw [heq]
      exact predictorUpdate_self _
    · refine ⟨_, readyToRun_L1 s thread h h50 h100, ?_⟩
      simp only [hne, if_neg]
      rw [heq]
      exact predictorUpdate_self _

/-- A state whose current thread has `accum_burst = T = 10`. -/
def s5 : SchedState := { s0 with current := ⟨0, 110, 10, 10, 0, ThreadStatus.RUNNING⟩ }

/-- Witness: `predictor_update_stable` applied to the concrete state `s5`
and thread `thA`. -/
theorem predictor_update_stable_witness :
    s5.intOff = true ∧ thA.id ≠ s5.current.id ∧
    s5.current.tempTick = s5.current.T ∧
    (∃ s', readyToRun s5 thA = some s' ∧ s'.current.T = s5.current.T) :=
  ⟨rfl, by decide, rfl, predictor_update_stable s5 thA rfl (by decide) rfl⟩

/-- A TERMINATED thread, used to show `ReadyToRun` performs no status check. -/
def thTerm : Thread := ⟨9, 10, 0, 0, 0, ThreadStatus.TERMINATED⟩

/-- Counterexample to C9 as stated: admitting the TERMINATED thread
`thTerm` triggers no assertion — the call returns normally and the thread
is silently placed (status rewritten to READY) at the tail of L3. -/
theorem readyToRun_terminated_not_detected :
    (readyToRun s0 thTerm).isSome = true ∧
    Option.map (fun s' => s'.L3Queue) (readyToRun s0 thTerm) =
      some (s0.L3Queue ++ [⟨{ thTerm with status := ThreadStatus.READY }, 3⟩]) := by
  constructor
  · rfl
  · rfl

/-- The amended error-handling contract: `ReadyToRun` contains no
status-based detection; its only assertion is the interrupt-level check.
Any thread — whatever its status, including RUNNING elsewhere or
TERMINATED — is silently set to READY and placed into its band queue. -/
def NoStatusGuardSpec (s : SchedState) (thread : Thread) : Prop :=
  ∃ s', readyToRun s thread = some s' ∧
    (⟨{ thread with status := ThreadStatus.READY }, s.seqCounter⟩ : Entry) ∈
      s'.L1Queue ++ s'.L2Queue ++ s'.L3Queue

/-- C9 (amended): with interrupts off, `ReadyToRun` succeeds on every
thread regardless of its status — a RUNNING-elsewhere or TERMINATED
thread is not detected by any assertion but silently admitted to a ready
queue. -/
theorem readyToRun_no_status_guard (s : SchedState) (thread : Thread)
    (h : s.intOff = true) : NoStatusGuardSpec s thread := by
  by_cases h50 : thread.priority < 50
  · refine ⟨_, readyToRun_L3 s thread h h50, ?_⟩
    simp
  · by_cases h100 : thread.priority < 100
    · refine ⟨_, readyToRun_L2 s thread h h50 h100, ?_⟩
      simp [listSortL2, List.mem_insertionSort]
    · refine ⟨_, readyToRun_L1 s thread h h50 h100, ?_⟩
      simp [listSortL1, List.mem_insertionSort]

/-- Witness: `readyToRun_no_status_guard` applied to the concrete state
`s0` and the TERMINATED thread `thTerm`. -/
theorem readyToRun_no_status_guard_witness :
    s0.intOff = true ∧ NoStatusGuardSpec s0 thTerm :=
  ⟨rfl, readyToRun_no_status_guard s0 thTerm rfl⟩

/-! ## Queue ordering disciplines (stability of `std::list::sort`) -/

/-- L1's ordering with FIFO tie-breaking: strictly smaller predicted
burst first, ties resolved by earlier admission (ghost `seq`). -/
def lexLt1 (a b : Entry) : Prop := cmpL1 a b ∨ (a.th.T = b.th.T ∧ a.seq < b.seq)

/-- L2's ordering with FIFO tie-breaking: strictly higher priority
first, ties resolved by earlier admission (ghost `seq`). -/
def lexLt2 (a b : Entry) : Prop := cmpL2 a b ∨ (a.th.priority = b.th.priority ∧ a.seq < b.seq)

instance : DecidableRel lexLt1 := fun a b => inferInstanceAs (Decidable (_ ∨ _))

instance : DecidableRel lexLt2 := fun a b => inferInstanceAs (Decidable (_ ∨ _))

/-- The L1 discipline: ascending `predicted_burst`, ties in admission order. -/
def SortedL1 (l : List Entry) : Prop := l.Pairwise lexLt1

/-- The L2 discipline: descending `priority`, ties in admission order. -/
def SortedL2 (l : List Entry) : Prop := l.Pairwise lexLt2

/-- The L3 discipline: strict admission (FIFO) order. -/
def AdmissionOrder (l : List Entry) : Prop := l.Pairwise (fun a b => a.seq < b.seq)

/-- Freshness of the ghost admission counter: every stamped entry in a
ready queue is older than the counter. -/
def SeqBound (s : SchedState) : Prop :=
  (∀ e ∈ s.L1Queue, e.seq < s.seqCounter) ∧
  (∀ e ∈ s.L2Queue, e.seq < s.seqCounter) ∧
  (∀ e ∈ s.L3Queue, e.seq < s.seqCounter)

instance (l : List Entry) : Decidable (SortedL1 l) :=
  inferInstanceAs (Decidable (l.Pairwise lexLt1))

instance (l : List Entry) : Decidable (SortedL2 l) :=
  inferInstanceAs (Decidable (l.Pairwise lexLt2))

instance (l : List Entry) : Decidable (AdmissionOrder l) :=
  inferInstanceAs (Decidable (l.Pairwise (fun a b => a.seq < b.seq : Entry → Entry → Prop)))

instance (s : SchedState) : Decidable (SeqBound s) :=
  inferInstanceAs (Decidable (_ ∧ _ ∧ _))

/-- Inserting `x` into a `lt`-pairwise list keeps it pairwise, provided
`x` is `lt`-below every member it is ordered no later than, and `lt`
holds backwards wherever the insertion order sends `x` past a member. -/
lemma pairwise_orderedInsert (r lt : Entry → Entry → Prop) [DecidableRel r]
    (hNotLe : ∀ a b, ¬ r a b → lt b a)
    (htrans : ∀ a b c, lt a b → lt b c → lt a c)
    (x : Entry) (l : List Entry) (hl : l.Pairwise lt)
    (hcompat : ∀ b ∈ l, r x b → lt x b) :
    (l.orderedInsert r x).Pairwise lt := by
  induction l with
  | nil => simp
  | cons b l ih =>
    rw [List.pairwise_cons] at hl
    obtain ⟨hbl, hl'⟩ := hl
    by_cases hr : r x b
    · rw [List.orderedInsert, if_pos hr]
      have hxb : lt x b := hcompat b (List.mem_cons_self b l) hr
      rw [List.pairwise_cons]
      refine ⟨?_, ?_⟩
      · intro y hy
        rcases List.mem_cons.mp hy with hyb | hyl
        · exact hyb ▸ hxb
        · exact htrans x b y hxb (hbl y hyl)
      · exact List.pairwise_cons.mpr ⟨hbl, hl'⟩
    · rw [List.orderedInsert, if_neg hr]
      rw [List.pairwise_cons]
      refine ⟨?_, ?_⟩
      · intro y hy
        rcases (List.mem_orderedInsert r).mp hy with hyx | hyl
        · exact hyx ▸ hNotLe x b hr
        · exact hbl y hyl
      · exact ih hl' (fun c hc hrc => hcompat c (List.mem_cons_of_mem b hc) hrc)

/-- Stability of the sort performed after `push_back`: sorting
`l ++ [x]` with the comparator-induced relation `r` yields a list that
is pairwise in the strict order `lt` refining `r` by admission order,
provided `l` already was and `x` carries the freshest admission stamp.
This is exactly the effect of `push_back` followed by the stable
`std::list::sort`. -/
lemma pairwise_insertionSort_append (r lt : Entry → Entry → Prop) [DecidableRel r]
    (htrans : ∀ a b c, lt a b → lt b c → lt a c)
    (hNotLe : ∀ a b, ¬ r a b → lt b a)
    (hTie : ∀ a b, a.seq < b.seq → r a b → lt a b)
    (x : Entry) (l : List Entry) (hl : l.Pairwise lt)
    (hfresh : ∀ b ∈ l, b.seq < x.seq) :
    ((l ++ [x]).insertionSort r).Pairwise lt := by
  induction l with
  | nil =>
    simp [List.insertionSort, List.orderedInsert]
  | cons a l ih =>
    rw [List.pairwise_cons] at hl
    obtain ⟨hal, hl'⟩ := hl
    have hm : ((l ++ [x]).insertionSort r).Pairwise lt :=
      ih hl' (fun b hb => hfresh b (List.mem_cons_of_mem a hb))
    rw [List.cons_append, List.insertionSort]
    refine pairwise_orderedInsert r lt hNotLe htrans a _ hm ?_
    intro b hb hrab
    rcases List.mem_append.mp ((List.mem_insertionSort r).mp hb) with hbl | hbx
    · exact hal b hbl
    · have hbx' : b = x := by simpa using hbx
      subst hbx'
      exact hTie a b (hfresh a (List.mem_cons_self a l)) hrab

/-- `lexLt1` is transitive. -/
lemma lexLt1_trans : ∀ a b c : Entry, lexLt1 a b → lexLt1 b c → lexLt1 a c := by
  intro a b c hab hbc
  rcases hab with h1 | ⟨e1, s1⟩ <;> rcases hbc with h2 | ⟨e2, s2⟩
  · exact Or.inl (lt_trans h1 h2)
  · exact Or.inl (lt_of_lt_of_eq h1 e2)
  · exact Or.inl (lt_of_eq_of_lt e1 h2)
  · exact Or.inr ⟨e1.trans e2, lt_trans s1 s2⟩

/-- An entry strictly below `leL1`'s complement is `lexLt1`-above. -/
lemma lexLt1_of_not_leL1 : ∀ a b : Entry, ¬ leL1 a b → lexLt1 b a :=
  fun _ _ h => Or.inl (not_not.mp h)

/-- A fresher entry that is `leL1`-no-earlier is `lexLt1`-later. -/
lemma lexLt1_of_seq_of_leL1 : ∀ a b : Entry, a.seq < b.seq → leL1 a b → lexLt1 a b := by
  intro a b hseq hr
  rcases lt_or_eq_of_le (not_lt.mp hr) with h | h
  · exact Or.inl h
  · exact Or.inr ⟨h, hseq⟩

/-- `lexLt2` is transitive. -/
lemma lexLt2_trans : ∀ a b c : Entry, lexLt2 a b → lexLt2 b c → lexLt2 a c := by
  intro a b c hab hbc
  rcases hab with h1 | ⟨e1, s1⟩ <;> rcases hbc with h2 | ⟨e2, s2⟩
  · exact Or.inl (lt_trans h2 h1)
  · exact Or.inl (lt_of_eq_of_lt e2.symm h1)
  · exact Or.inl (lt_of_lt_of_eq h2 e1.symm)
  · exact Or.inr ⟨e1.trans e2, lt_trans s1 s2⟩

/-- An entry strictly below `leL2`'s complement is `lexLt2`-above. -/
lemma lexLt2_of_not_leL2 : ∀ a b : Entry, ¬ leL2 a b → lexLt2 b a :=
  fun _ _ h => Or.inl (not_not.mp h)

/-- A fresher entry that is `leL2`-no-earlier is `lexLt2`-later. -/
lemma lexLt2_of_seq_of_leL2 : ∀ a b : Entry, a.seq < b.seq → leL2 a b → lexLt2 a b := by
  intro a b hseq hr
  rcases lt_or_eq_of_le (not_lt.mp hr) with h | h
  · exact Or.inl h
  · exact Or.inr ⟨h.symm, hseq⟩

/-- C4: `ReadyToRun` preserves the queue ordering disciplines — L1
sorted by ascending `predicted_burst` with FIFO ties, L2 by descending
`priority` with FIFO ties, L3 in admission order — together with the
freshness of the ghost admission counter.  The hypothesis `hcur` is the
spec's invariant 3 (the current thread is never in a ready queue), under
which the value-semantics embedding agrees with the pointer-mutating C++
(`setT` on the current thread can touch no queue entry). -/
theorem readyToRun_queue_disciplines (s : SchedState) (thread : Thread) (s' : SchedState)
    (hr : readyToRun s thread = some s')
    (hcur : ∀ e ∈ s.L1Queue ++ s.L2Queue ++ s.L3Queue, e.th.id ≠ s.current.id)
    (h1 : SortedL1 s.L1Queue) (h2 : SortedL2 s.L2Queue)
    (h3 : AdmissionOrder s.L3Queue) (hb : SeqBound s) :
    SortedL1 s'.L1Queue ∧ SortedL2 s'.L2Queue ∧ AdmissionOrder s'.L3Queue ∧ SeqBound s' := by
  obtain ⟨hb1, hb2, hb3⟩ := hb
  rcases hio : s.intOff with _ | _
  · simp [readyToRun, hio] at hr
  · by_cases h50 : thread.priority < 50
    · rw [readyToRun_L3 s thread hio h50, Option.some.injEq] at hr
      subst hr
      refine ⟨h1, h2, ?_, ?_, ?_, ?_⟩
      · refine List.pairwise_append.mpr ⟨h3, List.pairwise_singleton _ _, ?_⟩
        intro a ha b hbm
        rcases List.mem_singleton.mp hbm with rfl
        exact hb3 a ha
      · exact fun e he => Nat.lt_succ_of_lt (hb1 e he)
      · exact fun e he => Nat.lt_succ_of_lt (hb2 e he)
      · intro e he
        rcases List.mem_append.mp he with hold | hnew
        · exact Nat.lt_succ_of_lt (hb3 e hold)
        · rcases List.mem_singleton.mp hnew with rfl
          exact Nat.lt_succ_self _
    · by_cases h100 : thread.priority < 100
      · rw [readyToRun_L2 s thread hio h50 h100, Option.some.injEq] at hr
        subst hr
        refine ⟨h1, ?_, h3, ?_, ?_, ?_⟩
        · exact pairwise_insertionSort_append leL2 lexLt2 lexLt2_trans
            lexLt2_of_not_leL2 lexLt2_of_seq_of_leL2 _ _ h2 (fun b hbm => hb2 b hbm)
        · exact fun e he => Nat.lt_succ_of_lt (hb1 e he)
        · intro e he
          rcases List.mem_append.mp ((List.mem_insertionSort leL2).mp he) with hold | hnew
          · exact Nat.lt_succ_of_lt (hb2 e hold)
          · rcases List.mem_singleton.mp hnew with rfl
            exact Nat.lt_succ_self _
        · exact fun e he => Nat.lt_succ_of_lt (hb3 e he)
      · rw [readyToRun_L1 s thread hio h50 h100, Option.some.injEq] at hr
        subst hr
        refine ⟨?_, h2, h3, ?_, ?_, ?_⟩
        · exact pairwise_insertionSort_append leL1 lexLt1 lexLt1_trans
            lexLt1_of_not_leL1 lexLt1_of_seq_of_leL1 _ _ h1 (fun b hbm => hb1 b hbm)
        · intro e he
          rcases List.mem_append.mp ((List.mem_insertionSort leL1).mp he) with hold | hnew
          · exact Nat.lt_succ_of_lt (hb1 e hold)
          · rcases List.mem_singleton.mp hnew with rfl
            exact Nat.lt_succ_self _
        · exact fun e he => Nat.lt_succ_of_lt (hb2 e he)
        · exact fun e he => Nat.lt_succ_of_lt (hb3 e he)

/-- The current thread of `s0` re-admitting itself into L1 with a fresh
priority value: same id 0, priority 120. -/
def tSelf : Thread := ⟨0, 120, 10, 4, 0, ThreadStatus.RUNNING⟩

/-- The state reached from `s0` by `readyToRun s0 tSelf`. -/
def s4r : SchedState :=
  { L1Queue := [⟨thC, 0⟩, ⟨⟨0, 120, 10, 4, 0, ThreadStatus.READY⟩, 3⟩],
    L2Queue := [⟨thB, 1⟩], L3Queue := [⟨thA, 2⟩],
    toBeDestroyed := none, enablePreemptOnce := false,
    current := ⟨0, 120, 10, 4, 0, ThreadStatus.READY⟩,
    totalTicks := 100, alarmStat := false, intOff := true,
    trace := [Event.inserted 100 0 1], seqCounter := 4 }

/-- Witness: `readyToRun_queue_disciplines` applied to the concrete
admission `readyToRun s0 tSelf = some s4r`. -/
theorem readyToRun_queue_disciplines_witness :
    SortedL1 s4r.L1Queue ∧ SortedL2 s4r.L2Queue ∧
    AdmissionOrder s4r.L3Queue ∧ SeqBound s4r :=
  readyToRun_queue_disciplines s0 tSelf s4r (by decide) (by decide)
    (by decide) (by decide) (by decide) (by decide)
